import Mathlib

/-!
Verification of the JSON data-extractor route (`src/app/api/json/route.ts`).

The development shallowly embeds the route's pure core:

* `JsValue` — decoded JSON / JavaScript runtime values (including `undef`,
  the result of reading an absent property);
* `determineSchemaType` — the kind-discrimination function of the route;
* `jsonSchemaToZod` — the recursive shape compiler, producing a `Zt`
  (the fragment of Zod validator combinators the route uses);
* `Zt.parse` — the runtime semantics of those Zod validators;
* `RetryablePromise.retry` — the bounded retry loop, instrumented with the
  number of executor invocations;
* `POSTrun` — the request handler pipeline, instrumented with the number of
  generator calls.

JavaScript method dispatch is modelled at the JSON level: `hasOwnProperty`
is own-key membership and property access on an object is key lookup
(returning `undef` when the key is absent); prototype-chain pathologies such
as a JSON key literally named `hasOwnProperty` are outside the embedding.
Object key enumeration follows list order, matching insertion order of
JSON-decoded objects.
-/

set_option autoImplicit false

/-- Decoded JSON values extended with JavaScript `undefined` (`undef`), which
arises from reading an absent property. `num` carries an integer; no claim
depends on non-integral numbers. -/
inductive JsValue where
  | undef
  | null
  | bool (b : Bool)
  | num (n : Int)
  | str (s : String)
  | arr (elems : List JsValue)
  | obj (fields : List (String × JsValue))
deriving Repr

/-- Key lookup in a JavaScript object. JSON-decoded objects have unique keys,
so first-match lookup coincides with the runtime record semantics. -/
def lookupJs : List (String × JsValue) → String → Option JsValue
  | [], _ => none
  | (k, v) :: rest, key => if k = key then some v else lookupJs rest key

/-- JavaScript `typeof` restricted to the values of the embedding. -/
def typeofStr : JsValue → String
  | .undef => "undefined"
  | .null => "object"
  | .bool _ => "boolean"
  | .num _ => "number"
  | .str _ => "string"
  | .arr _ => "object"
  | .obj _ => "object"

/-- Exceptions the shape compiler can throw.

* `typeError` models the JavaScript `TypeError` raised by
  `schema.hasOwnProperty("type")` when `schema` is `undefined` or `null` —
  in particular when an array-kind node has no `items` key, so that
  `schema.items` is `undefined` (the failure mode the specification names
  `MissingItemsDescriptor`).
* `unsupportedType t` models `throw new Error("Unsupported date type: " + t)`
  in the default switch branch; it carries the offending kind value rather
  than its string rendering. -/
inductive JsError where
  | typeError
  | unsupportedType (t : JsValue)
deriving Repr

/-- The route's `determineSchemaType`: if the node has no own `type` key,
an array is kind `array` and anything else is its `typeof`; otherwise the
value of the `type` key is returned as-is. On `undefined` or `null` the
`hasOwnProperty` call throws. -/
def determineSchemaType : JsValue → Except JsError JsValue
  | .undef => .error .typeError
  | .null => .error .typeError
  | .arr _ => .ok (.str "array")
  | .obj fields =>
    match lookupJs fields "type" with
    | some t => .ok t
    | none => .ok (.str (typeofStr (.obj fields)))
  | v => .ok (.str (typeofStr v))

/-- The fragment of Zod validators the route constructs: `z.string()`,
`z.number()`, `z.boolean()`, `z.object(shape)` (strip and `.passthrough()`
variants) and `z.array(item)`, each possibly wrapped in `.nullable()`. -/
inductive Zt where
  | zstring
  | znumber
  | zboolean
  | zobject (shape : List (String × Zt))
  | zobjectPassthrough (shape : List (String × Zt))
  | zarray (item : Zt)
  | znullable (inner : Zt)
deriving Repr

mutual

/-- The route's `jsonSchemaToZod`: discriminate the node kind, then
compile per kind. The `switch` cases appear in source order (string, object,
array, number, boolean, default).

In the `array` case the route computes `jsonSchemaToZod(schema.items)`; the
property read plus recursive call is embedded as the field walk
`compileItems` (see `compileItems_eq_lookup` for the lookup-shaped
characterization); for a non-object array-kind node, e.g. a bare JSON
array, the `items` read yields `undefined` and the recursive call's
`hasOwnProperty` throws the TypeError at once.

In the `object` case the route iterates the node's own enumerable keys;
kind `object` only arises for object nodes, and the unreachable non-object
fallback yields the empty iteration. -/
def jsonSchemaToZod (schema : JsValue) : Except JsError Zt :=
  match determineSchemaType schema with
  | .error e => .error e
  | .ok t =>
    match t with
    | .str s =>
      if s = "string" then .ok (.znullable .zstring)
      else if s = "object" then
        match schema with
        | .obj fields =>
          match compileFields fields with
          | .ok shape => .ok (.zobject shape)
          | .error e => .error e
        | _ => .ok (.zobject [])
      else if s = "array" then
        match schema with
        | .obj fields => compileItems fields
        | _ => .error .typeError
      else if s = "number" then .ok (.znullable .znumber)
      else if s = "boolean" then .ok (.znullable .zboolean)
      else .error (.unsupportedType (.str s))
    | other => .error (.unsupportedType other)

/-- The `for key in schema` loop of the object case: every key except the
reserved `type` key is recursively compiled and installed, in enumeration
order; a child compilation error propagates. -/
def compileFields : List (String × JsValue) → Except JsError (List (String × Zt))
  | [] => .ok []
  | (k, v) :: rest =>
    if k = "type" then compileFields rest
    else
      match jsonSchemaToZod v with
      | .error e => .error e
      | .ok t =>
        match compileFields rest with
        | .error e => .error e
        | .ok s => .ok ((k, t) :: s)

/-- The array case of the route:
`z.array(jsonSchemaToZod(schema.items)).nullable()`. The property read
`schema.items` followed by the recursive call is expressed as a walk to the
`items` key (proved equal to the lookup formulation in
`compileItems_eq_lookup`); with no `items` key the read yields `undefined`,
whose recursive `hasOwnProperty` call throws the TypeError. -/
def compileItems : List (String × JsValue) → Except JsError Zt
  | [] => .error .typeError
  | (k, v) :: rest =>
    if k = "items" then
      match jsonSchemaToZod v with
      | .ok it => .ok (.znullable (.zarray it))
      | .error e => .error e
    else compileItems rest

end

/-- The field walk of the array case agrees with the source formulation:
look up `items` and recurse (throwing on `undefined`). -/
theorem compileItems_eq_lookup (fields : List (String × JsValue)) :
    compileItems fields =
      match lookupJs fields "items" with
      | some v =>
        match jsonSchemaToZod v with
        | .ok it => .ok (.znullable (.zarray it))
        | .error e => .error e
      | none => .error .typeError := by
  induction fields with
  | nil => rfl
  | cons kv rest ih =>
    obtain ⟨k, v⟩ := kv
    by_cases hk : k = "items" <;> simp [compileItems, lookupJs, hk, ih]

/-- Output assembly of `z.object(shape).passthrough().parse`: every input key
is kept, with keys named in the shape replaced by their parsed values. -/
def passthroughFields (fields parsed : List (String × JsValue)) : List (String × JsValue) :=
  fields.map fun kv =>
    match lookupJs parsed kv.1 with
    | some v => (kv.1, v)
    | none => kv

/-- Elementwise validation of `z.array`, parameterized by the item
validator's parse function. -/
def parseItems (p : JsValue → Option JsValue) : List JsValue → Option (List JsValue)
  | [] => some []
  | x :: xs =>
    match p x, parseItems p xs with
    | some v, some vs => some (v :: vs)
    | _, _ => none

mutual

/-- Runtime semantics of the Zod validators the route builds, as used by
`.parse`: `some` is the parsed (coerced) output, `none` is a thrown
`ZodError`. Mirrors Zod: `.nullable()` accepts `null` and otherwise
delegates; `z.object` requires a non-null non-array object, validates every
shape key (an absent key reads as `undef` and fails every validator in this
fragment), and strips unknown keys unless `.passthrough()` is set;
`z.array` requires an array and validates elementwise. -/
def Zt.parse : Zt → JsValue → Option JsValue
  | .zstring, .str s => some (.str s)
  | .zstring, _ => none
  | .znumber, .num n => some (.num n)
  | .znumber, _ => none
  | .zboolean, .bool b => some (.bool b)
  | .zboolean, _ => none
  | .znullable _, .null => some .null
  | .znullable t, v => t.parse v
  | .zobject shape, .obj fields => (parseShape shape fields).map .obj
  | .zobject _, _ => none
  | .zobjectPassthrough shape, .obj fields =>
    (parseShape shape fields).map fun parsed => .obj (passthroughFields fields parsed)
  | .zobjectPassthrough _, _ => none
  | .zarray t, .arr xs => (parseItems (Zt.parse t) xs).map .arr
  | .zarray _, _ => none

/-- Field-by-field validation of `z.object`: each shape key's validator runs
on the corresponding input value (`undef` when absent); the output keeps
exactly the shape keys, in shape order. -/
def parseShape : List (String × Zt) → List (String × JsValue) → Option (List (String × JsValue))
  | [], _ => some []
  | (k, t) :: rest, fields =>
    match t.parse ((lookupJs fields k).getD .undef), parseShape rest fields with
    | some v, some vs => some ((k, v) :: vs)
    | _, _ => none

end

/-- The outer request-envelope validator of `POST`:
`z.object({ data: z.string(), format: z.object({}).passthrough() })`. -/
def genericSchema : Zt :=
  .zobject [("data", .zstring), ("format", .zobjectPassthrough [])]

/-- One bounded-retry run of `RetryablePromise.retry`, instrumented with the
number of executor invocations. `attempts i` is the outcome of the i-th
invocation of the executor (each invocation re-runs the executor, whose
result varies only through the external generator). Returns the final
settled outcome together with how many times the executor ran. -/
def retryRun {E T : Type} (attempts : Nat → Except E T) : Nat → Nat → Except E T × Nat
  | retries, i =>
    match attempts i with
    | .ok v => (.ok v, 1)
    | .error e =>
      match retries with
      | r + 1 =>
        let p := retryRun attempts r (i + 1)
        (p.1, p.2 + 1)
      | 0 => (.error e, 1)

/-- The static `RetryablePromise.retry(retries, executor)`: run the executor; on
rejection, recurse with `retries - 1` while `retries > 0`, otherwise settle
on the last rejection reason. The second component counts executor
invocations. -/
def RetryablePromise.retry {E T : Type} (retries : Nat) (attempts : Nat → Except E T) :
    Except E T × Nat :=
  retryRun attempts retries 0

/-- Outcome of one call to the external generator (the `openai.chat`
completion): a transport-level rejection, or a returned message content,
which may be JavaScript `null`. -/
inductive GenResult where
  | transportError
  | content (text : Option String)

/-- The failure of a single attempt inside the retry executor. -/
inductive AttemptError where
  | transport
  | decodeFailure
  | shapeMismatch
deriving Repr, DecidableEq

/-- One executor invocation of the `POST` retry loop, for the i-th generator
call: on transport error reject; otherwise `JSON.parse` the content (the
`console.log(JSON.parse(text!))` line throws first on invalid JSON; a `null`
content stringifies to `"null"` and does not throw there), then validate
`JSON.parse(text || "\x7b\x7d")` against the compiled schema and resolve, or
reject on a `ZodError`. `decode` stands for the JavaScript `JSON.parse`
builtin (`none` models a thrown `SyntaxError`). -/
def attemptOutcome (decode : String → Option JsValue) (dynamicSchema : Zt)
    (gen : Nat → GenResult) (i : Nat) : Except AttemptError JsValue :=
  match gen i with
  | .transportError => .error .transport
  | .content none =>
    match decode "\x7b\x7d" with
    | none => .error .decodeFailure
    | some v =>
      match dynamicSchema.parse v with
      | some out => .ok out
      | none => .error .shapeMismatch
  | .content (some s) =>
    match decode s with
    | none => .error .decodeFailure
    | some _ =>
      match decode (if s = "" then "\x7b\x7d" else s) with
      | none => .error .decodeFailure
      | some v =>
        match dynamicSchema.parse v with
        | some out => .ok out
        | none => .error .shapeMismatch

/-- The terminal outcome of the `POST` handler pipeline. -/
inductive PostError where
  | envelopeInvalid
  | compileError (e : JsError)
  | exhausted (e : AttemptError)

/-- Result of a `POST` run plus the number of generator calls made. -/
structure PostOutcome where
  result : Except PostError JsValue
  generatorCalls : Nat

/-- The `POST` handler pipeline on an already-decoded request body:
`genericSchema.parse(body)` (a throw is `envelopeInvalid`, no generator
call); `jsonSchemaToZod(format)` on the envelope output's `format` (a throw
surfaces with zero generator calls); then
`RetryablePromise.retry(5, executor)` where the executor performs one
generator round-trip per invocation. The prompt string built from `data`
and `format` only feeds the external generator and does not influence the
modelled control flow. -/
def POSTrun (decode : String → Option JsValue) (gen : Nat → GenResult)
    (body : JsValue) : PostOutcome :=
  match Zt.parse genericSchema body with
  | none => ⟨.error .envelopeInvalid, 0⟩
  | some parsed =>
    let format :=
      match parsed with
      | .obj pf => (lookupJs pf "format").getD .undef
      | _ => .undef
    match jsonSchemaToZod format with
    | .error e => ⟨.error (.compileError e), 0⟩
    | .ok dynamicSchema =>
      let p := RetryablePromise.retry 5 (attemptOutcome decode dynamicSchema gen)
      match p.1 with
      | .ok v => ⟨.ok v, p.2⟩
      | .error e => ⟨.error (.exhausted e), p.2⟩

/-- Key lookup in a compiled object shape, mirroring `lookupJs`. -/
def lookupShape : List (String × Zt) → String → Option Zt
  | [], _ => none
  | (k, t) :: rest, key => if k = key then some t else lookupShape rest key

/-- No validator in the compiled fragment accepts JavaScript `undefined`
(Zod reports a missing required value); in particular an absent object key
fails its field validator. -/
theorem parse_undef_none : ∀ t : Zt, t.parse .undef = none
  | .zstring => by simp [Zt.parse]
  | .znumber => by simp [Zt.parse]
  | .zboolean => by simp [Zt.parse]
  | .zobject _ => by simp [Zt.parse]
  | .zobjectPassthrough _ => by simp [Zt.parse]
  | .zarray _ => by simp [Zt.parse]
  | .znullable t => by
    have := parse_undef_none t
    simp [Zt.parse, this]

/-- Passthrough with an empty shape returns the input fields verbatim. -/
theorem passthroughFields_nil (fields : List (String × JsValue)) :
    passthroughFields fields [] = fields := by
  induction fields with
  | nil => simp [passthroughFields]
  | cons kv rest ih =>
    simpa [passthroughFields, lookupJs] using ih

/-- If every invocation of the executor rejects, the retry loop starting at
invocation index `i` with `n` retries left performs `n + 1` invocations and
settles on the rejection reason of the last one. -/
theorem retryRun_allFail {E T : Type} (attempts : Nat → Except E T) (err : Nat → E)
    (h : ∀ i, attempts i = .error (err i)) :
    ∀ n i, retryRun attempts n i = (.error (err (i + n)), n + 1) := by
  intro n
  induction n with
  | zero => intro i; simp [retryRun, h i]
  | succ m ih =>
    intro i
    have hrec := ih (i + 1)
    simp only [retryRun, h i, hrec]
    have : i + 1 + m = i + (m + 1) := by omega
    rw [this]

/-- If the first `k` invocations reject and invocation `k` resolves, and at
least `k` retries are available, the loop resolves with that value after
exactly `k + 1` invocations. -/
theorem retryRun_firstSuccess {E T : Type} (attempts : Nat → Except E T) (v : T) :
    ∀ (k n i : Nat), (∀ j, j < k → ∃ e, attempts (i + j) = .error e) →
      attempts (i + k) = .ok v → k ≤ n →
      retryRun attempts n i = (.ok v, k + 1) := by
  intro k
  induction k with
  | zero =>
    intro n i _ hsucc _
    simp only [Nat.add_zero] at hsucc
    simp [retryRun, hsucc]
  | succ m ih =>
    intro n i hfail hsucc hle
    obtain ⟨e, he⟩ := hfail 0 (Nat.succ_pos m)
    simp only [Nat.add_zero] at he
    obtain ⟨n', rfl⟩ : ∃ n', n = n' + 1 := ⟨n - 1, by omega⟩
    have hrec := ih n' (i + 1)
      (fun j hj => by
        obtain ⟨e', he'⟩ := hfail (j + 1) (by omega)
        exact ⟨e', by rw [show i + 1 + j = i + (j + 1) by omega]; exact he'⟩)
      (by rw [show i + 1 + m = i + (m + 1) by omega]; exact hsucc)
      (by omega)
    simp [retryRun, he, hrec]


/-- A string-kind node compiles to the nullable string validator. -/
theorem compile_string_kind (schema : JsValue)
    (h : determineSchemaType schema = .ok (.str "string")) :
    jsonSchemaToZod schema = .ok (.znullable .zstring) := by
  cases schema <;> simp_all [jsonSchemaToZod, determineSchemaType, typeofStr]

/-- A number-kind node compiles to the nullable number validator. -/
theorem compile_number_kind (schema : JsValue)
    (h : determineSchemaType schema = .ok (.str "number")) :
    jsonSchemaToZod schema = .ok (.znullable .znumber) := by
  cases schema <;> simp_all [jsonSchemaToZod, determineSchemaType, typeofStr]

/-- A boolean-kind node compiles to the nullable boolean validator. -/
theorem compile_boolean_kind (schema : JsValue)
    (h : determineSchemaType schema = .ok (.str "boolean")) :
    jsonSchemaToZod schema = .ok (.znullable .zboolean) := by
  cases schema <;> simp_all [jsonSchemaToZod, determineSchemaType, typeofStr]

/-- A successful compilation of an array-kind node is an
`.nullable()`-wrapped `z.array` validator. -/
theorem jsonSchemaToZod_array_form (schema : JsValue) (t : Zt)
    (harr : determineSchemaType schema = .ok (.str "array"))
    (hc : jsonSchemaToZod schema = .ok t) :
    ∃ it, t = .znullable (.zarray it) := by
  cases schema with
  | obj fields =>
    simp only [jsonSchemaToZod] at hc
    rw [harr] at hc
    simp only [String.reduceEq, reduceIte] at hc
    rw [compileItems_eq_lookup] at hc
    split at hc
    · split at hc
      · simp only [Except.ok.injEq] at hc
        exact ⟨_, hc.symm⟩
      · simp at hc
    · simp at hc
  | undef => simp [determineSchemaType] at harr
  | null => simp [determineSchemaType] at harr
  | bool b => simp [determineSchemaType, typeofStr] at harr
  | num n => simp [determineSchemaType, typeofStr] at harr
  | str s => simp [determineSchemaType, typeofStr] at harr
  | arr es =>
    simp only [jsonSchemaToZod] at hc
    simp [determineSchemaType] at hc

/-- An array-kind object node without an `items` key fails compilation with
the TypeError of the `undefined` recursion. -/
theorem compile_array_noitems (fields : List (String × JsValue))
    (harr : determineSchemaType (.obj fields) = .ok (.str "array"))
    (hni : lookupJs fields "items" = none) :
    jsonSchemaToZod (.obj fields) = .error .typeError := by
  simp only [jsonSchemaToZod]
  rw [harr]
  simp only [String.reduceEq, reduceIte]
  rw [compileItems_eq_lookup, hni]

/-- An object-kind node whose field compilation succeeds compiles to the
(strip-mode, non-nullable) object validator over that shape. -/
theorem compile_object_kind (fields : List (String × JsValue))
    (shape : List (String × Zt))
    (hobj : determineSchemaType (.obj fields) = .ok (.str "object"))
    (hc : compileFields fields = .ok shape) :
    jsonSchemaToZod (.obj fields) = .ok (.zobject shape) := by
  simp only [jsonSchemaToZod]
  rw [hobj]
  simp [hc]

/-- The compiled shape never contains a field named `type`. -/
theorem compileFields_lookup_type {fields : List (String × JsValue)}
    {shape : List (String × Zt)} (h : compileFields fields = .ok shape) :
    lookupShape shape "type" = none := by
  induction fields generalizing shape with
  | nil =>
    simp only [compileFields, Except.ok.injEq] at h
    subst h
    simp [lookupShape]
  | cons kv rest ih =>
    obtain ⟨k, v⟩ := kv
    by_cases hk : k = "type"
    · subst hk
      simp only [compileFields, if_pos rfl] at h
      exact ih h
    · simp only [compileFields, if_neg hk] at h
      rcases hv : jsonSchemaToZod v with e | t <;> rw [hv] at h
      · simp at h
      · rcases hr : compileFields rest with e | s <;> rw [hr] at h
        · simp at h
        · simp only [Except.ok.injEq] at h
          subst h
          simp only [lookupShape, if_neg hk]
          exact ih hr

/-- Every non-`type` key of the raw node whose overall compilation succeeds
is installed in the shape, bound to the compilation of its value. -/
theorem compileFields_lookup_mem {fields : List (String × JsValue)}
    {shape : List (String × Zt)} (h : compileFields fields = .ok shape)
    {k : String} (hk : k ≠ "type") {v : JsValue}
    (hv : lookupJs fields k = some v) :
    ∃ t, jsonSchemaToZod v = .ok t ∧ lookupShape shape k = some t := by
  induction fields generalizing shape with
  | nil => simp [lookupJs] at hv
  | cons kv rest ih =>
    obtain ⟨k0, v0⟩ := kv
    by_cases hk0 : k0 = "type"
    · subst hk0
      simp only [compileFields, if_pos rfl] at h
      rw [lookupJs, if_neg (fun he => hk he.symm)] at hv
      exact ih h hv
    · simp only [compileFields, if_neg hk0] at h
      rcases hc : jsonSchemaToZod v0 with e | t0 <;> rw [hc] at h
      · simp at h
      · rcases hr : compileFields rest with e | s <;> rw [hr] at h
        · simp at h
        · simp only [Except.ok.injEq] at h
          subst h
          by_cases hkk : k0 = k
          · subst hkk
            rw [lookupJs, if_pos rfl] at hv
            injection hv with hv
            subst hv
            exact ⟨t0, hc, by simp [lookupShape]⟩
          · rw [lookupJs, if_neg hkk] at hv
            obtain ⟨t, ht1, ht2⟩ := ih hr hv
            refine ⟨t, ht1, ?_⟩
            rw [lookupShape, if_neg hkk]
            exact ht2

/-- Every field of the compiled shape arises from a non-`type` key of the
raw node, bound to the compilation of its value. -/
theorem compileFields_lookup_rev {fields : List (String × JsValue)}
    {shape : List (String × Zt)} (h : compileFields fields = .ok shape)
    {k : String} {t : Zt} (ht : lookupShape shape k = some t) :
    k ≠ "type" ∧ ∃ v, lookupJs fields k = some v ∧ jsonSchemaToZod v = .ok t := by
  induction fields generalizing shape with
  | nil =>
    simp only [compileFields, Except.ok.injEq] at h
    subst h
    simp [lookupShape] at ht
  | cons kv rest ih =>
    obtain ⟨k0, v0⟩ := kv
    by_cases hk0 : k0 = "type"
    · subst hk0
      simp only [compileFields, if_pos rfl] at h
      obtain ⟨hne, v, h1, h2⟩ := ih h ht
      refine ⟨hne, v, ?_, h2⟩
      rw [lookupJs, if_neg (fun he => hne he.symm)]
      exact h1
    · simp only [compileFields, if_neg hk0] at h
      rcases hc : jsonSchemaToZod v0 with e | t0 <;> rw [hc] at h
      · simp at h
      · rcases hr : compileFields rest with e | s <;> rw [hr] at h
        · simp at h
        · simp only [Except.ok.injEq] at h
          subst h
          by_cases hkk : k0 = k
          · subst hkk
            rw [lookupShape, if_pos rfl] at ht
            injection ht with ht
            subst ht
            exact ⟨hk0, v0, by simp [lookupJs], hc⟩
          · rw [lookupShape, if_neg hkk] at ht
            obtain ⟨hne, v, h1, h2⟩ := ih hr ht
            refine ⟨hne, v, ?_, h2⟩
            rw [lookupJs, if_neg hkk]
            exact h1

/-- The envelope validator accepts a well-formed two-field body and returns
it with the `format` object passed through verbatim. -/
theorem genericSchema_parse_obj (d : String) (fields : List (String × JsValue)) :
    Zt.parse genericSchema (.obj [("data", .str d), ("format", .obj fields)]) =
      some (.obj [("data", .str d), ("format", .obj fields)]) := by
  simp [genericSchema, Zt.parse, parseShape, lookupJs, passthroughFields_nil]

/-- A shape field whose key is absent from the validated object makes the
field-by-field validation fail (the absent key reads as `undefined`). -/
theorem parseShape_absent {shape : List (String × Zt)} {f : String} {t : Zt}
    (hf : lookupShape shape f = some t) {fields : List (String × JsValue)}
    (habs : lookupJs fields f = none) : parseShape shape fields = none := by
  induction shape with
  | nil => simp [lookupShape] at hf
  | cons kt rest ih =>
    obtain ⟨k, t0⟩ := kt
    by_cases hk : k = f
    · subst hk
      simp [parseShape, habs, parse_undef_none]
    · simp only [lookupShape, if_neg hk] at hf
      have hrest := ih hf
      rcases hp : t0.parse ((lookupJs fields k).getD .undef) with _ | v <;>
        simp [parseShape, hp, hrest]

/-- Claim C1: if every executor invocation rejects, `RetryablePromise.retry`
with `n` retries invokes the executor exactly `n + 1` times (the initial
attempt plus `n` retries) and settles on the last invocation's rejection
reason — the terminal failure the specification names `GenerationExhausted`,
carrying the last underlying error. -/
theorem retry_exhaustion_invocations {E T : Type} (n : Nat)
    (attempts : Nat → Except E T) (err : Nat → E)
    (h : ∀ i, attempts i = .error (err i)) :
    RetryablePromise.retry n attempts = (.error (err n), n + 1) := by
  have := retryRun_allFail attempts err h n 0
  simpa [RetryablePromise.retry] using this

/-- Claim C1 witness: with `maxRetries = 2` and an always-failing executor,
the loop fails after exactly 3 invocations, carrying the last error. -/
theorem retry_exhaustion_invocations_witness :
    RetryablePromise.retry 2 (fun i => (.error i : Except Nat Unit)) = (.error 2, 3) :=
  retry_exhaustion_invocations 2 (fun i => .error i) (fun i => i) (fun _ => rfl)

/-- Claim C2: as soon as one attempt succeeds, the retry loop returns that
attempt's value immediately and performs no further invocations: if the
first `k` invocations reject, invocation `k` resolves with `v`, and at
least `k` retries were requested, the loop resolves with `v` after exactly
`k + 1` invocations. -/
theorem retry_success_short_circuit {E T : Type} (retries k : Nat)
    (attempts : Nat → Except E T) (v : T)
    (hfail : ∀ j, j < k → ∃ e, attempts j = .error e)
    (hsucc : attempts k = .ok v) (hk : k ≤ retries) :
    RetryablePromise.retry retries attempts = (.ok v, k + 1) := by
  have := retryRun_firstSuccess attempts v k retries 0
    (fun j hj => by simpa using hfail j hj) (by simpa using hsucc) hk
  simpa [RetryablePromise.retry] using this

/-- Claim C2 witness: an executor failing on invocations 1 and 2 and
succeeding on invocation 3, with `maxRetries = 5`, yields the value after
exactly 3 invocations. -/
theorem retry_success_short_circuit_witness :
    RetryablePromise.retry 5
      (fun i => if i < 2 then (.error "bad" : Except String Nat) else .ok 7) =
      (.ok 7, 3) :=
  retry_success_short_circuit 5 2 _ 7
    (fun j hj => ⟨"bad", by simp [hj]⟩) (by simp) (by omega)

/-- Claim C3: a string-, number- or boolean-kind node compiles to the
corresponding `.nullable()` leaf validator, which accepts `null`; an
array-kind node compiles to a `.nullable()` array validator, which also
accepts `null`; and each nullable leaf validator rejects every non-null
value of a different primitive kind. -/
theorem primitive_and_array_validators_nullable :
    (∀ schema, determineSchemaType schema = .ok (.str "string") →
        jsonSchemaToZod schema = .ok (.znullable .zstring))
    ∧ (∀ schema, determineSchemaType schema = .ok (.str "number") →
        jsonSchemaToZod schema = .ok (.znullable .znumber))
    ∧ (∀ schema, determineSchemaType schema = .ok (.str "boolean") →
        jsonSchemaToZod schema = .ok (.znullable .zboolean))
    ∧ (∀ schema t, determineSchemaType schema = .ok (.str "array") →
        jsonSchemaToZod schema = .ok t → t.parse .null = some .null)
    ∧ (∀ inner, Zt.parse (.znullable inner) .null = some .null)
    ∧ (∀ n, Zt.parse (.znullable .zstring) (.num n) = none)
    ∧ (∀ b, Zt.parse (.znullable .zstring) (.bool b) = none)
    ∧ (∀ s, Zt.parse (.znullable .znumber) (.str s) = none)
    ∧ (∀ b, Zt.parse (.znullable .znumber) (.bool b) = none)
    ∧ (∀ s, Zt.parse (.znullable .zboolean) (.str s) = none)
    ∧ (∀ n, Zt.parse (.znullable .zboolean) (.num n) = none) := by
  refine ⟨compile_string_kind, compile_number_kind, compile_boolean_kind,
    fun schema t harr hc => ?_,
    fun inner => by simp [Zt.parse],
    fun n => by simp [Zt.parse],
    fun b => by simp [Zt.parse],
    fun s => by simp [Zt.parse],
    fun b => by simp [Zt.parse],
    fun s => by simp [Zt.parse],
    fun n => by simp [Zt.parse]⟩
  obtain ⟨it, rfl⟩ := jsonSchemaToZod_array_form schema t harr hc
  simp [Zt.parse]

/-- Claim C3 witness: `{type:"string"}` compiles to the nullable string
validator, which accepts `null` and rejects a number. -/
theorem primitive_and_array_validators_nullable_witness :
    jsonSchemaToZod (.obj [("type", .str "string")]) = .ok (.znullable .zstring)
    ∧ Zt.parse (.znullable .zstring) .null = some .null
    ∧ Zt.parse (.znullable .zstring) (.num 3) = none :=
  ⟨primitive_and_array_validators_nullable.1 _ rfl,
    primitive_and_array_validators_nullable.2.2.2.2.1 .zstring,
    primitive_and_array_validators_nullable.2.2.2.2.2.1 3⟩

/-- Claim C4: every array-kind node without an `items` key fails compilation
with the TypeError the specification names `MissingItemsDescriptor` (reading
`schema.items` yields `undefined`, whose `hasOwnProperty` call throws in
the recursive call), and a request whose `format` is such a node fails
before any generator call is made (zero generator invocations). -/
theorem array_without_items_fails_compile (schema : JsValue)
    (harr : determineSchemaType schema = .ok (.str "array"))
    (hnoitems : ∀ fields, schema = .obj fields → lookupJs fields "items" = none) :
    jsonSchemaToZod schema = .error .typeError
    ∧ (∀ (decode : String → Option JsValue) (gen : Nat → GenResult) (d : String)
        (fields : List (String × JsValue)), schema = .obj fields →
        (POSTrun decode gen (.obj [("data", .str d), ("format", schema)])).result =
            .error (.compileError .typeError)
        ∧ (POSTrun decode gen
            (.obj [("data", .str d), ("format", schema)])).generatorCalls = 0) := by
  have h1 : jsonSchemaToZod schema = .error .typeError := by
    cases schema with
    | obj fields => exact compile_array_noitems fields harr (hnoitems fields rfl)
    | arr es => simp [jsonSchemaToZod, determineSchemaType]
    | undef => simp [determineSchemaType] at harr
    | null => simp [determineSchemaType] at harr
    | bool b => simp [determineSchemaType, typeofStr] at harr
    | num n => simp [determineSchemaType, typeofStr] at harr
    | str s => simp [determineSchemaType, typeofStr] at harr
  refine ⟨h1, fun decode gen d fields hobj => ?_⟩
  subst hobj
  have hpost : POSTrun decode gen (.obj [("data", .str d), ("format", .obj fields)]) =
      ⟨.error (.compileError .typeError), 0⟩ := by
    rw [POSTrun, genericSchema_parse_obj]
    simp only [lookupJs, String.reduceEq, reduceIte, Option.getD_some]
    rw [h1]
  rw [hpost]
  exact ⟨rfl, rfl⟩

/-- Claim C4 witness: compiling `{type:"array"}` (no `items`) fails, and the
matching request performs zero generator calls. -/
theorem array_without_items_fails_compile_witness :
    jsonSchemaToZod (.obj [("type", .str "array")]) = .error .typeError
    ∧ (POSTrun (fun _ => none) (fun _ => .transportError)
        (.obj [("data", .str "x"),
          ("format", .obj [("type", .str "array")])])).generatorCalls = 0 := by
  have h := array_without_items_fails_compile (.obj [("type", .str "array")]) rfl
    (by intro f hf; cases hf; rfl)
  exact ⟨h.1, (h.2 _ _ "x" _ rfl).2⟩

/-- Claim C5: a node whose declared or inferred kind is none of string,
number, boolean, object, array fails compilation with the error the
specification names `UnsupportedShapeKind` (the thrown
`Unsupported date type` error, carrying the offending kind). -/
theorem unsupported_kind_fails_compile (schema t : JsValue)
    (h : determineSchemaType schema = .ok t)
    (h1 : t ≠ .str "string") (h2 : t ≠ .str "number") (h3 : t ≠ .str "boolean")
    (h4 : t ≠ .str "object") (h5 : t ≠ .str "array") :
    jsonSchemaToZod schema = .error (.unsupportedType t) := by
  cases schema with
  | undef => simp [determineSchemaType] at h
  | null => simp [determineSchemaType] at h
  | bool b =>
    simp only [determineSchemaType, typeofStr, Except.ok.injEq] at h
    exact absurd h.symm h3
  | num n =>
    simp only [determineSchemaType, typeofStr, Except.ok.injEq] at h
    exact absurd h.symm h2
  | str s =>
    simp only [determineSchemaType, typeofStr, Except.ok.injEq] at h
    exact absurd h.symm h1
  | arr es =>
    simp only [determineSchemaType, Except.ok.injEq] at h
    exact absurd h.symm h5
  | obj fields =>
    simp only [jsonSchemaToZod]
    rw [h]
    cases t with
    | str s =>
      have hs1 : s ≠ "string" := fun he => h1 (by rw [he])
      have hs2 : s ≠ "number" := fun he => h2 (by rw [he])
      have hs3 : s ≠ "boolean" := fun he => h3 (by rw [he])
      have hs4 : s ≠ "object" := fun he => h4 (by rw [he])
      have hs5 : s ≠ "array" := fun he => h5 (by rw [he])
      simp [hs1, hs2, hs3, hs4, hs5]
    | undef => rfl
    | null => rfl
    | bool b => rfl
    | num n => rfl
    | arr es => rfl
    | obj fs => rfl

/-- Claim C5 witness: compiling `{type:"date"}` fails with the unsupported
kind error carrying `"date"`. -/
theorem unsupported_kind_fails_compile_witness :
    jsonSchemaToZod (.obj [("type", .str "date")]) =
      .error (.unsupportedType (.str "date")) :=
  unsupported_kind_fails_compile _ _ rfl (by simp) (by simp) (by simp)
    (by simp) (by simp)

/-- Claim C6: compiling an object-kind node recursively compiles every key
of the raw node except the literal key `type` and installs it as a field of
the resulting object validator, and only those; the `type` key never
becomes a field, so a child field literally named `type` cannot be
modeled. -/
theorem object_compile_fields_except_type (fields : List (String × JsValue))
    (shape : List (String × Zt))
    (hobj : determineSchemaType (.obj fields) = .ok (.str "object"))
    (hc : compileFields fields = .ok shape) :
    jsonSchemaToZod (.obj fields) = .ok (.zobject shape)
    ∧ lookupShape shape "type" = none
    ∧ (∀ k, k ≠ "type" → ∀ v, lookupJs fields k = some v →
        ∃ t, jsonSchemaToZod v = .ok t ∧ lookupShape shape k = some t)
    ∧ (∀ k t, lookupShape shape k = some t →
        k ≠ "type" ∧ ∃ v, lookupJs fields k = some v ∧ jsonSchemaToZod v = .ok t) :=
  ⟨compile_object_kind fields shape hobj hc,
    compileFields_lookup_type hc,
    fun _ hk _ hv => compileFields_lookup_mem hc hk hv,
    fun _ _ ht => compileFields_lookup_rev hc ht⟩

/-- Claim C6 witness: `{type:"object", a:{type:"string"}, extra:{type:"number"}}`
compiles with fields `a` and `extra` installed; no field named `type` is
installed. -/
theorem object_compile_fields_except_type_witness :
    jsonSchemaToZod (.obj [("type", .str "object"),
        ("a", .obj [("type", .str "string")]),
        ("extra", .obj [("type", .str "number")])]) =
      .ok (.zobject [("a", .znullable .zstring), ("extra", .znullable .znumber)])
    ∧ lookupShape [("a", .znullable .zstring), ("extra", .znullable .znumber)]
        "type" = none := by
  have h := object_compile_fields_except_type
    [("type", .str "object"), ("a", .obj [("type", .str "string")]),
      ("extra", .obj [("type", .str "number")])]
    [("a", .znullable .zstring), ("extra", .znullable .znumber)]
    rfl
    (by simp [compileFields, jsonSchemaToZod, determineSchemaType, lookupJs, typeofStr])
  exact ⟨h.1, h.2.1⟩

/-- Claim C7: every request body accepted by the outer envelope validator
has an object `format`, and the envelope output carries that `format`
object verbatim (all keys preserved, none stripped); the value handed to
the shape compiler is exactly the submitted `format`. -/
theorem envelope_preserves_format_keys (body out : JsValue)
    (h : Zt.parse genericSchema body = some out) :
    ∃ bfields ffields d,
      body = .obj bfields
      ∧ lookupJs bfields "format" = some (.obj ffields)
      ∧ lookupJs bfields "data" = some (.str d)
      ∧ out = .obj [("data", .str d), ("format", .obj ffields)]
      ∧ (match out with
          | .obj pf => (lookupJs pf "format").getD .undef
          | _ => .undef) = .obj ffields := by
  cases body with
  | obj bfields =>
    rcases hd : lookupJs bfields "data" with _ | dv
    · exact absurd h (by simp [genericSchema, Zt.parse, parseShape, hd])
    · cases dv with
      | str d =>
        rcases hf : lookupJs bfields "format" with _ | fv
        · exact absurd h (by simp [genericSchema, Zt.parse, parseShape, hd, hf])
        · cases fv with
          | obj ffields =>
            have hres : Zt.parse genericSchema (.obj bfields) =
                some (.obj [("data", .str d), ("format", .obj ffields)]) := by
              simp [genericSchema, Zt.parse, parseShape, hd, hf, passthroughFields_nil]
            rw [hres] at h
            simp only [Option.some.injEq] at h
            subst h
            exact ⟨bfields, ffields, d, rfl, hf, hd, rfl, by simp [lookupJs]⟩
          | undef =>
            exact absurd h (by simp [genericSchema, Zt.parse, parseShape, hd, hf])
          | null =>
            exact absurd h (by simp [genericSchema, Zt.parse, parseShape, hd, hf])
          | bool b =>
            exact absurd h (by simp [genericSchema, Zt.parse, parseShape, hd, hf])
          | num n =>
            exact absurd h (by simp [genericSchema, Zt.parse, parseShape, hd, hf])
          | str s =>
            exact absurd h (by simp [genericSchema, Zt.parse, parseShape, hd, hf])
          | arr es =>
            exact absurd h (by simp [genericSchema, Zt.parse, parseShape, hd, hf])
      | undef => exact absurd h (by simp [genericSchema, Zt.parse, parseShape, hd])
      | null => exact absurd h (by simp [genericSchema, Zt.parse, parseShape, hd])
      | bool b => exact absurd h (by simp [genericSchema, Zt.parse, parseShape, hd])
      | num n => exact absurd h (by simp [genericSchema, Zt.parse, parseShape, hd])
      | arr es => exact absurd h (by simp [genericSchema, Zt.parse, parseShape, hd])
      | obj o => exact absurd h (by simp [genericSchema, Zt.parse, parseShape, hd])
  | undef => exact absurd h (by simp [genericSchema, Zt.parse])
  | null => exact absurd h (by simp [genericSchema, Zt.parse])
  | bool b => exact absurd h (by simp [genericSchema, Zt.parse])
  | num n => exact absurd h (by simp [genericSchema, Zt.parse])
  | str s => exact absurd h (by simp [genericSchema, Zt.parse])
  | arr es => exact absurd h (by simp [genericSchema, Zt.parse])

/-- Claim C7 witness: a body whose `format` holds keys unknown to the
envelope schema is accepted with the `format` object preserved verbatim. -/
theorem envelope_preserves_format_keys_witness :
    ∃ bfields ffields d,
      (JsValue.obj [("data", .str "hi"),
        ("format", .obj [("x", .num 1), ("extra", .bool true)])]) = .obj bfields
      ∧ lookupJs bfields "format" = some (.obj ffields)
      ∧ lookupJs bfields "data" = some (.str d)
      ∧ (JsValue.obj [("data", .str "hi"),
          ("format", .obj [("x", .num 1), ("extra", .bool true)])]) =
          .obj [("data", .str d), ("format", .obj ffields)]
      ∧ (match (JsValue.obj [("data", .str "hi"),
            ("format", .obj [("x", .num 1), ("extra", .bool true)])]) with
          | .obj pf => (lookupJs pf "format").getD .undef
          | _ => .undef) = .obj ffields :=
  envelope_preserves_format_keys _ _
    (by simp [genericSchema, Zt.parse, parseShape, lookupJs, passthroughFields])

/-- Claim C8: a non-array mapping with no `type` key is inferred to be of
kind `object` (the `typeof` fallback) and compiles as an object shape over
its keys; in particular the top-level description
`{name:{type:"string"}, age:{type:"number"}}` compiles successfully. -/
theorem untyped_mapping_inferred_object (fields : List (String × JsValue))
    (h : lookupJs fields "type" = none) :
    determineSchemaType (.obj fields) = .ok (.str "object")
    ∧ (∀ shape, compileFields fields = .ok shape →
        jsonSchemaToZod (.obj fields) = .ok (.zobject shape))
    ∧ jsonSchemaToZod (.obj [("name", .obj [("type", .str "string")]),
        ("age", .obj [("type", .str "number")])]) =
      .ok (.zobject [("name", .znullable .zstring), ("age", .znullable .znumber)]) := by
  have hdet : determineSchemaType (.obj fields) = .ok (.str "object") := by
    simp [determineSchemaType, h, typeofStr]
  refine ⟨hdet, fun shape hc => compile_object_kind fields shape hdet hc, ?_⟩
  simp [jsonSchemaToZod, compileFields, determineSchemaType, lookupJs, typeofStr]

/-- Claim C8 witness: the example mapping with no `type` discriminator is
inferred as object kind and compiles. -/
theorem untyped_mapping_inferred_object_witness :
    determineSchemaType (.obj [("name", .obj [("type", .str "string")]),
        ("age", .obj [("type", .str "number")])]) = .ok (.str "object")
    ∧ jsonSchemaToZod (.obj [("name", .obj [("type", .str "string")]),
        ("age", .obj [("type", .str "number")])]) =
      .ok (.zobject [("name", .znullable .zstring), ("age", .znullable .znumber)]) :=
  ⟨(untyped_mapping_inferred_object
      [("name", .obj [("type", .str "string")]),
        ("age", .obj [("type", .str "number")])] rfl).1,
    (untyped_mapping_inferred_object
      [("name", .obj [("type", .str "string")]),
        ("age", .obj [("type", .str "number")])] rfl).2.2⟩

/-- Claim C9: a validator compiled from an object-kind node is a plain
(non-nullable) object validator and rejects `null`, in contrast to the
`.nullable()`-wrapped primitive and array validators, which accept it. -/
theorem object_validator_rejects_null (schema : JsValue) (t : Zt)
    (hk : determineSchemaType schema = .ok (.str "object"))
    (hc : jsonSchemaToZod schema = .ok t) :
    (∃ shape, t = .zobject shape) ∧ t.parse .null = none
    ∧ (∀ inner, Zt.parse (.znullable inner) .null = some .null) := by
  have hform : ∃ shape, t = .zobject shape := by
    cases schema with
    | obj fields =>
      simp only [jsonSchemaToZod] at hc
      rw [hk] at hc
      simp only [String.reduceEq, reduceIte] at hc
      split at hc
      · simp only [Except.ok.injEq] at hc
        exact ⟨_, hc.symm⟩
      · simp at hc
    | undef => simp [determineSchemaType] at hk
    | null => simp [determineSchemaType] at hk
    | bool b => simp [determineSchemaType, typeofStr] at hk
    | num n => simp [determineSchemaType, typeofStr] at hk
    | str s => simp [determineSchemaType, typeofStr] at hk
    | arr es => simp [determineSchemaType] at hk
  obtain ⟨shape, rfl⟩ := hform
  exact ⟨⟨shape, rfl⟩, by simp [Zt.parse], fun inner => by simp [Zt.parse]⟩

/-- Claim C9 witness: the compiled validator of `{a:{type:"string"}}`
rejects `null`. -/
theorem object_validator_rejects_null_witness :
    Zt.parse (.zobject [("a", .znullable .zstring)]) .null = none := by
  have h := object_validator_rejects_null (.obj [("a", .obj [("type", .str "string")])])
    (.zobject [("a", .znullable .zstring)]) rfl
    (by simp [jsonSchemaToZod, compileFields, determineSchemaType, lookupJs, typeofStr])
  exact h.2.1

/-- Claim C10: every field installed in a compiled object validator is
required: if the shape declares field `f` and the validated mapping lacks
`f` entirely, validation fails; yet an explicit `null` passes any
`.nullable()` field validator (leaf and array field shapes), as the
concrete instances show — `null` and absence are not interchangeable. -/
theorem object_fields_required (shape : List (String × Zt))
    (fields : List (String × JsValue)) (f : String) (t : Zt)
    (hf : lookupShape shape f = some t)
    (habs : lookupJs fields f = none) :
    Zt.parse (.zobject shape) (.obj fields) = none
    ∧ (∀ inner, Zt.parse (.znullable inner) .null = some .null)
    ∧ Zt.parse (.zobject [("a", .znullable .zstring)]) (.obj [("a", .null)]) =
        some (.obj [("a", .null)])
    ∧ Zt.parse (.zobject [("a", .znullable .zstring)]) (.obj []) = none := by
  refine ⟨?_, fun inner => by simp [Zt.parse],
    by simp [Zt.parse, parseShape, lookupJs],
    by simp [Zt.parse, parseShape, lookupJs, parse_undef_none]⟩
  have hps := parseShape_absent hf habs
  simp [Zt.parse, hps]

/-- Claim C10 witness: the compiled shape `{a: nullable string}` rejects the
empty mapping (field `a` absent) but accepts `{a: null}`. -/
theorem object_fields_required_witness :
    Zt.parse (.zobject [("a", .znullable .zstring)]) (.obj []) = none
    ∧ Zt.parse (.zobject [("a", .znullable .zstring)]) (.obj [("a", .null)]) =
        some (.obj [("a", .null)]) := by
  have h := object_fields_required [("a", .znullable .zstring)] [] "a"
    (.znullable .zstring) (by simp [lookupShape]) (by simp [lookupJs])
  exact ⟨h.1, h.2.2.1⟩
